import Mathlib

/-!
Verification of the programmatic tool-calling runtime.

A shallow embedding, in Lean 4, of the core value-processing components of the
repository: the MCP response normalizer (`transformMCPResponse` /
`normalizeResponseStructure` in `src/lib/tool-wrapper.ts`), the parameter
normalizer (`normalizeParameters`), the MCP bridge circuit breaker
(`MCPToolBridge.handleRequest`), the context filter
(`ContextManager.addMessage` in `src/package/src/mcp/client.ts`), the savings
accountant (`ToolOrchestrationSandbox.getComprehensiveTokenSavings`), the RPC
response-file writer, and the file-mediated host/worker RPC protocol.

JavaScript values are modelled by the inductive type `JSValue`; objects are
association lists in insertion order (property update keeps the original
position, as in JS).  JS numbers are modelled as integers: every number the
embedded code paths produce or compare is integral.  Machine-level float
behaviour, and JS arrays carrying named properties, are outside the model and
noted where the source could produce them.
-/

/-- A JavaScript value: `undefined` is `undefined`, distinct from `null`.
Objects are ordered association lists of (key, value). -/
inductive JSValue where
  | null : JSValue
  | undefined : JSValue
  | bool : Bool → JSValue
  | num : Int → JSValue
  | str : String → JSValue
  | arr : List JSValue → JSValue
  | obj : List (String × JSValue) → JSValue

namespace JSValue

/-- JS truthiness: `null`, `undefined`, `false`, `0`, `""` are falsy;
objects and arrays are always truthy. -/
def truthy : JSValue → Bool
  | .null => false
  | .undefined => false
  | .bool b => b
  | .num n => !(n == 0)
  | .str s => !(s == "")
  | .arr _ => true
  | .obj _ => true

/-- `typeof v === 'object'` (true for objects, arrays and `null`). -/
def isObjectType : JSValue → Bool
  | .obj _ => true
  | .arr _ => true
  | .null => true
  | _ => false

def isObj : JSValue → Bool
  | .obj _ => true
  | _ => false

def isArr : JSValue → Bool
  | .arr _ => true
  | _ => false

def isStr : JSValue → Bool
  | .str _ => true
  | _ => false

def isNum : JSValue → Bool
  | .num _ => true
  | _ => false

def isBool : JSValue → Bool
  | .bool _ => true
  | _ => false

/-- `v === null || v === undefined`. -/
def isNullOrUndefined : JSValue → Bool
  | .null => true
  | .undefined => true
  | _ => false

def isUndefined : JSValue → Bool
  | .undefined => true
  | _ => false

/-- `v === false` (strict equality against the boolean `false`). -/
def isFalseVal : JSValue → Bool
  | .bool false => true
  | _ => false

/-- `v === s` for a string literal `s`. -/
def eqStr : JSValue → String → Bool
  | .str t, s => t == s
  | _, _ => false

/-- Property read `v[k]`: `undefined` on missing keys and on non-objects.
(The translated code never reads numeric indices or `length` through this.) -/
def getProp : JSValue → String → JSValue
  | .obj fs, k => ((fs.find? (fun f => f.1 == k)).map (fun f => f.2)).getD .undefined
  | _, _ => .undefined

/-- `k in v`: key presence (even when the stored value is `undefined`).
On arrays the own keys are the indices. -/
def hasKey : JSValue → String → Bool
  | .obj fs, k => fs.any (fun f => f.1 == k)
  | .arr xs, k => (List.range xs.length).any (fun i => toString i == k)
  | _, _ => false

/-- Insert-or-replace in an association list, keeping the original position of
an existing key (JS property-assignment order semantics). -/
def setField : List (String × JSValue) → String → JSValue → List (String × JSValue)
  | [], k, v => [(k, v)]
  | (k', v') :: fs, k, v =>
    if k' == k then (k', v) :: fs else (k', v') :: setField fs k v

/-- Property write `v[k] = x`.  On non-objects this is the identity: the
translated code only assigns properties of plain objects (a strict-mode JS
assignment to a primitive would throw, but no embedded path reaches that). -/
def setProp : JSValue → String → JSValue → JSValue
  | .obj fs, k, v => .obj (setField fs k v)
  | x, _, _ => x

/-- `a || b` as a value (first operand if truthy, else second). -/
def jsOr (a b : JSValue) : JSValue := if truthy a then a else b

/-- The element list of an array value, `[]` otherwise. -/
def arrElems : JSValue → List JSValue
  | .arr xs => xs
  | _ => []

/-- The field list of an object value, `[]` otherwise. -/
def objFields : JSValue → List (String × JSValue)
  | .obj fs => fs
  | _ => []

end JSValue

/-- `s.includes(sub)` for the literal keywords used by the source
(`scrape`, `crawl`, `search`, `extract`, `batch`, `Missing required`, …). -/
def strIncludes (s sub : String) : Bool := (s.splitOn sub).length != 1

mutual
/-- JS string coercion `String(v)` (also template-literal interpolation):
`String(null) = "null"`, `String(undefined) = "undefined"`, numbers print in
decimal, arrays join with `,` (null/undefined elements print empty),
plain objects print `[object Object]`. -/
def jsToString : JSValue → String
  | .null => "null"
  | .undefined => "undefined"
  | .bool b => if b then "true" else "false"
  | .num n => toString n
  | .str s => s
  | .arr xs => String.intercalate "," (jsToStringElems xs)
  | .obj _ => "[object Object]"

def jsToStringElems : List JSValue → List String
  | [] => []
  | .null :: xs => "" :: jsToStringElems xs
  | .undefined :: xs => "" :: jsToStringElems xs
  | x :: xs => jsToString x :: jsToStringElems xs
end

/-- `Array.prototype.join("\n")` element coercion: null/undefined become
the empty string, everything else coerces via `String(·)`. -/
def joinElemString (v : JSValue) : String :=
  match v with
  | .null => ""
  | .undefined => ""
  | x => jsToString x

/-- `Number(v)` restricted to the integral values the embedding carries;
`none` models `NaN`. -/
def jsToNumber (v : JSValue) : Option Int :=
  match v with
  | .null => some 0
  | .undefined => none
  | .bool b => some (if b then 1 else 0)
  | .num n => some n
  | .str s =>
    let t := s.trim
    if t == "" then some 0
    else if t.startsWith "-" then
      let d := t.drop 1
      if d != "" && d.all Char.isDigit then some (-(d.toNat!)) else none
    else if t.all Char.isDigit then some (t.toNat!) else none
  | .arr [] => some 0
  | .arr [x] => jsToNumber x
  | .arr _ => none
  | .obj _ => none

/-! ## JSON serialization (`JSON.stringify`) and parsing (`JSON.parse`)

The bridge and the RPC layer serialize values with `JSON.stringify` and read
them back with `JSON.parse`.  `stringify` yields `none` exactly for a
top-level `undefined`; inside objects an `undefined` field is dropped, inside
arrays it prints as `null`.  The string escapes cover the characters the
source can produce (`"`, `\`, newline, tab, carriage return); the parser
accepts exactly those escapes plus the remaining single-character JSON
escapes.  Numbers are integral in the model. -/

/-- Escape a character for a JSON string literal. -/
def escChar (c : Char) : List Char :=
  if c == '"' then ['\\', '"']
  else if c == '\\' then ['\\', '\\']
  else if c == '\n' then ['\\', 'n']
  else if c == '\t' then ['\\', 't']
  else if c == '\r' then ['\\', 'r']
  else [c]

def escapeChars : List Char → List Char
  | [] => []
  | c :: cs => escChar c ++ escapeChars cs

/-- Join character chunks with a separator. -/
def joinChars (sep : List Char) : List (List Char) → List Char
  | [] => []
  | [x] => x
  | x :: xs => x ++ sep ++ joinChars sep xs

mutual
/-- `JSON.stringify` at character level; `none` models the `undefined` result. -/
def jsonStringifyChars : JSValue → Option (List Char)
  | .null => some ['n', 'u', 'l', 'l']
  | .undefined => none
  | .bool b => some (if b then ['t', 'r', 'u', 'e'] else ['f', 'a', 'l', 's', 'e'])
  | .num n => some (toString n).data
  | .str s => some ('"' :: (escapeChars s.data ++ ['"']))
  | .arr xs => some ('[' :: (joinChars [','] (jsonStringifyElems xs) ++ [']']))
  | .obj fs => some ('\x7b' :: (joinChars [','] (jsonStringifyFields fs) ++ ['\x7d']))

/-- Array elements: an `undefined` element prints as `null`. -/
def jsonStringifyElems : List JSValue → List (List Char)
  | [] => []
  | x :: xs =>
    ((jsonStringifyChars x).getD ['n', 'u', 'l', 'l']) :: jsonStringifyElems xs

/-- Object fields: a field whose value is `undefined` is dropped. -/
def jsonStringifyFields : List (String × JSValue) → List (List Char)
  | [] => []
  | (k, v) :: fs =>
    match jsonStringifyChars v with
    | none => jsonStringifyFields fs
    | some vc =>
      ('"' :: (escapeChars k.data ++ ['"', ':'] ++ vc)) :: jsonStringifyFields fs
end

def jsonStringify (v : JSValue) : Option String :=
  (jsonStringifyChars v).map String.mk

def skipWs : List Char → List Char
  | [] => []
  | c :: cs =>
    if c == ' ' || c == '\n' || c == '\t' || c == '\r' then skipWs cs else c :: cs

/-- Decode a JSON escape character (`\uXXXX` is not modelled; the source
never emits it). -/
def unesc (c : Char) : Option Char :=
  if c == 'n' then some '\n'
  else if c == 't' then some '\t'
  else if c == 'r' then some '\r'
  else if c == '"' || c == '\\' || c == '/' then some c
  else if c == 'b' then some (Char.ofNat 8)
  else if c == 'f' then some (Char.ofNat 12)
  else none

/-- Parse the body of a JSON string literal (after the opening quote),
returning the decoded characters and the remainder after the closing quote. -/
def parseStringBody : List Char → Option (List Char × List Char)
  | [] => none
  | c :: rest =>
    if c == '"' then some ([], rest)
    else if c == '\\' then
      match rest with
      | [] => none
      | e :: rest2 =>
        match unesc e with
        | none => none
        | some u =>
          match parseStringBody rest2 with
          | none => none
          | some (s, r) => some (u :: s, r)
    else
      match parseStringBody rest with
      | none => none
      | some (s, r) => some (c :: s, r)

def digitsToNat (ds : List Char) : Nat :=
  ds.foldl (fun acc c => acc * 10 + (c.toNat - '0'.toNat)) 0

/-- Parse an integral JSON number.  (Fractions and exponents are outside the
model; the embedded code never produces them.) -/
def parseNumber (cs : List Char) : Option (JSValue × List Char) :=
  match cs with
  | '-' :: rest =>
    let ds := rest.takeWhile Char.isDigit
    if ds.isEmpty then none
    else some (.num (-(digitsToNat ds : Int)), rest.dropWhile Char.isDigit)
  | _ =>
    let ds := cs.takeWhile Char.isDigit
    if ds.isEmpty then none
    else some (.num (digitsToNat ds : Int), cs.dropWhile Char.isDigit)

/-- Strip an expected literal prefix, returning the remainder. -/
def stripChars : List Char → List Char → Option (List Char)
  | [], cs => some cs
  | p :: ps, c :: cs => if c == p then stripChars ps cs else none
  | _ :: _, [] => none

mutual
/-- Fueled JSON value parser. -/
def parseVal : Nat → List Char → Option (JSValue × List Char)
  | 0, _ => none
  | f + 1, cs =>
    match skipWs cs with
    | [] => none
    | c :: rest =>
      if c == '"' then (parseStringBody rest).map (fun p => (.str (String.mk p.1), p.2))
      else if c == '\x7b' then
        match skipWs rest with
        | c2 :: rest2 =>
          if c2 == '\x7d' then some (.obj [], rest2)
          else (parseMembers f rest).map (fun p => (.obj p.1, p.2))
        | [] => (parseMembers f rest).map (fun p => (.obj p.1, p.2))
      else if c == '[' then
        match skipWs rest with
        | c2 :: rest2 =>
          if c2 == ']' then some (.arr [], rest2)
          else (parseElems f rest).map (fun p => (.arr p.1, p.2))
        | [] => (parseElems f rest).map (fun p => (.arr p.1, p.2))
      else if c == 't' then
        match stripChars ['r', 'u', 'e'] rest with
        | some rest2 => some (.bool true, rest2)
        | none => none
      else if c == 'f' then
        match stripChars ['a', 'l', 's', 'e'] rest with
        | some rest2 => some (.bool false, rest2)
        | none => none
      else if c == 'n' then
        match stripChars ['u', 'l', 'l'] rest with
        | some rest2 => some (.null, rest2)
        | none => none
      else parseNumber (c :: rest)

/-- Parse the members of a JSON object (at least one), after the opening
brace. -/
def parseMembers : Nat → List Char → Option (List (String × JSValue) × List Char)
  | 0, _ => none
  | f + 1, cs =>
    match skipWs cs with
    | [] => none
    | c :: rest =>
      if c == '"' then
        match parseStringBody rest with
        | none => none
        | some (kcs, rest2) =>
          match skipWs rest2 with
          | [] => none
          | c2 :: rest3 =>
            if c2 == ':' then
              match parseVal f rest3 with
              | none => none
              | some (v, rest4) =>
                match skipWs rest4 with
                | [] => none
                | c3 :: rest5 =>
                  if c3 == ',' then
                    (parseMembers f rest5).map (fun p => ((String.mk kcs, v) :: p.1, p.2))
                  else if c3 == '\x7d' then some ([(String.mk kcs, v)], rest5)
                  else none
            else none
      else none

/-- Parse the elements of a JSON array (at least one), after the opening
bracket. -/
def parseElems : Nat → List Char → Option (List JSValue × List Char)
  | 0, _ => none
  | f + 1, cs =>
    match parseVal f cs with
    | none => none
    | some (v, rest) =>
      match skipWs rest with
      | [] => none
      | c :: rest2 =>
        if c == ',' then (parseElems f rest2).map (fun p => (v :: p.1, p.2))
        else if c == ']' then some ([v], rest2)
        else none
end

def jsonParseChars (cs : List Char) : Option JSValue :=
  match parseVal (cs.length + 2) cs with
  | some (v, rest) => if skipWs rest == [] then some v else none
  | none => none

def jsonParse (s : String) : Option JSValue := jsonParseChars s.data

/-- `JSON.parse(JSON.stringify(v))`: the deep-clone idiom used by
`normalizeParameters`. -/
def jsonRoundTrip (v : JSValue) : Option JSValue :=
  (jsonStringifyChars v).bind jsonParseChars

/-! ## Response Normalizer (`src/lib/tool-wrapper.ts`, lines 520–695) -/

/-- `Object.assign(target, source)`: copy the source fields onto the target
in order (an existing key keeps its position, a new key is appended). -/
def objectAssign (target : JSValue) (fs : List (String × JSValue)) : JSValue :=
  fs.foldl (fun t f => JSValue.setProp t f.1 f.2) target

/-- The own enumerable fields of a value, as used by object spread
(an array spreads to index-keyed fields). -/
def spreadFields : JSValue → List (String × JSValue)
  | .obj fs => fs
  | .arr xs => xs.enum.map (fun p => (toString p.1, p.2))
  | _ => []

open JSValue in
/-- `normalizeResponseStructure(data)` (tool-wrapper.ts:520).  Adds a boolean
`success`, the `_normalized` marker and `_raw`, unwraps the most informative
container field into `items`/`data`/`first`/`last`/`length`, adds textual
aliases, and surfaces a top-level error. -/
def normalizeResponseStructure (data : JSValue) : JSValue :=
  if isNullOrUndefined data then
    .obj [("success", .bool false), ("data", .null), ("items", .arr []),
          ("output", .str ""), ("text", .str ""), ("error", .str "No data returned")]
  else if truthy (getProp data "_normalized") then data
  else
    let success : Bool :=
      !(isFalseVal (getProp data "success")) && !(truthy (getProp data "error"))
        && !(truthy (getProp data "isError"))
    let result0 : JSValue :=
      .obj [("success", .bool success), ("_normalized", .bool true), ("_raw", data)]
    let mainData : JSValue :=
      if !(isUndefined (getProp data "data")) then getProp data "data"
      else if !(isUndefined (getProp data "result")) then getProp data "result"
      else if !(isUndefined (getProp data "results")) then getProp data "results"
      else if !(isUndefined (getProp data "content")) && !(truthy (getProp data "markdown")) then
        getProp data "content"
      else data
    let textContent0 : JSValue :=
      if isStr (getProp data "text") then getProp data "text"
      else if isStr mainData then mainData
      else if !(isUndefined (getProp data "stdout")) then getProp data "stdout"
      else if !(isUndefined (getProp data "output")) then .str (jsToString (getProp data "output"))
      else .str ""
    let branched : JSValue × JSValue :=
      match mainData with
      | .arr xs =>
        (setProp (setProp (setProp (setProp (setProp result0
            "items" (.arr xs)) "data" (.arr xs)) "length" (.num xs.length))
            "first" (jsOr (xs.headD .undefined) .null))
            "last" (jsOr ((xs.getLast?).getD .undefined) .null),
         textContent0)
      | .obj fs =>
        (objectAssign (setProp (setProp (setProp (setProp (setProp result0
            "items" (.arr [.obj fs])) "data" (.obj fs)) "length" (.num 1))
            "first" (.obj fs)) "last" (.obj fs)) fs,
         textContent0)
      | md =>
        (setProp (setProp (setProp (setProp result0
            "items" (.arr [md])) "data" md) "value" md) "length" (.num 1),
         if isStr md then md else textContent0)
    let result1 := branched.1
    let textContent := branched.2
    let r2 := setProp result1 "text" (jsOr textContent (jsOr (getProp result1 "text") (.str "")))
    let r3 := setProp r2 "output" (jsOr textContent (jsOr (getProp r2 "output") (.str "")))
    let r4 := setProp r3 "stdout" (jsOr textContent (jsOr (getProp r3 "stdout") (.str "")))
    let r5 := setProp r4 "content" (jsOr textContent (jsOr (getProp r4 "content") (getProp r4 "data")))
    let r6 := setProp r5 "value" (jsOr (getProp r5 "value") (jsOr textContent (getProp r5 "data")))
    if truthy (getProp data "error") then
      setProp (setProp (setProp r6 "error" (getProp data "error"))
        "stderr" (getProp data "error")) "success" (.bool false)
    else r6

open JSValue in
/-- `transformMCPResponse(rawResponse)` (tool-wrapper.ts:616).  Flattens the
MCP protocol envelope; otherwise defers to `normalizeResponseStructure`.
When a single text part parses to a JSON *array*, the source attaches a
`success` own-property to that array; arrays with named properties are not
representable here, so the parsed array is returned unchanged (no claim in
this development exercises that path). -/
def transformMCPResponse (rawResponse : JSValue) : JSValue :=
  if !(truthy rawResponse) then rawResponse
  else if truthy (getProp rawResponse "content") && isArr (getProp rawResponse "content") then
    let content := arrElems (getProp rawResponse "content")
    if truthy (getProp rawResponse "isError") then
      let errorText := String.intercalate "\n"
        ((content.filter (fun c => eqStr (getProp c "type") "text")).map
          (fun c => joinElemString (getProp c "text")))
      .obj [("success", .bool false),
            ("error", if errorText == "" then .str "MCP tool returned an error" else .str errorText),
            ("_raw", rawResponse)]
    else
      let textContents := content.filter (fun c => eqStr (getProp c "type") "text")
      match textContents with
      | [] =>
        .obj [("success", .bool true), ("content", getProp rawResponse "content"),
              ("_raw", rawResponse)]
      | [tc] =>
        let textContent := getProp tc "text"
        match jsonParse (jsToString textContent) with
        | some parsed =>
          if (isObj parsed || isArr parsed) && !(hasKey parsed "success") then
            match parsed with
            | .obj fs => .obj (fs ++ [("success", .bool true)])
            | p => p
          else parsed
        | none =>
          .obj [("success", .bool true), ("text", textContent), ("_raw", rawResponse)]
      | tcs =>
        let combined := tcs.map (fun c =>
          match jsonParse (jsToString (getProp c "text")) with
          | some p => p
          | none => getProp c "text")
        .obj [("success", .bool true), ("results", .arr combined), ("_raw", rawResponse)]
  else if (isObj rawResponse || isArr rawResponse) && !(hasKey rawResponse "success") then
    normalizeResponseStructure (.obj (spreadFields rawResponse ++ [("success", .bool true)]))
  else normalizeResponseStructure rawResponse

/-- A primitive JS value (not an object, not an array). -/
def JSValue.isPrimitive (v : JSValue) : Bool := !(v.isObj || v.isArr)

/-- An empty MCP error envelope: its transform is an object without `items`. -/
def mcpErrorEnvelopeEmpty : JSValue := .obj [("content", .arr []), ("isError", .bool true)]

/-- C1 counterexample: the claimed output shape does not hold for every input.
At `v = null` the transformer returns its falsy input unchanged, so
`result.items` is not a sequence (and `success` / `_raw` do not exist). -/
theorem transformMCPResponse_null_lacks_items :
    transformMCPResponse .null = .null ∧
    (JSValue.getProp (transformMCPResponse .null) "items").isArr = false :=
  ⟨rfl, rfl⟩

open JSValue in
/-- C1 (amended): for every *truthy primitive* input (a nonempty string, a
nonzero number, or `true`), the Response Normalizer returns a record whose
`items` is a sequence, whose `success` is a boolean, and whose `_raw` holds
the original input.  (Falsy inputs are returned unchanged; MCP-envelope and
record inputs can lack `items` or `_raw`.) -/
theorem transformMCPResponse_truthy_primitive_shape (v : JSValue)
    (hp : v.isPrimitive = true) (ht : v.truthy = true) :
    (getProp (transformMCPResponse v) "items").isArr = true ∧
    (getProp (transformMCPResponse v) "success").isBool = true ∧
    getProp (transformMCPResponse v) "_raw" = v := by
  cases v with
  | null => exact absurd ht (by decide)
  | undefined => exact absurd ht (by decide)
  | bool b =>
    cases b with
    | false => exact absurd ht (by decide)
    | true => exact ⟨rfl, rfl, rfl⟩
  | num n =>
    have ht' : (n == 0) = false := by
      simp [truthy] at ht; simpa using ht
    simp [transformMCPResponse, normalizeResponseStructure, getProp, setProp, setField,
      truthy, jsOr, isNullOrUndefined, isUndefined, isFalseVal, isStr, isArr, isObj, isBool,
      arrElems, hasKey, ht']
  | str s =>
    have ht' : (s == "") = false := by
      simp [truthy] at ht; simpa using ht
    simp [transformMCPResponse, normalizeResponseStructure, getProp, setProp, setField,
      truthy, jsOr, isNullOrUndefined, isUndefined, isFalseVal, isStr, isArr, isObj, isBool,
      arrElems, hasKey, ht']
  | arr xs => exact absurd hp (by simp [isPrimitive, isArr, isObj])
  | obj fs => exact absurd hp (by simp [isPrimitive, isArr, isObj])

/-- Witness for C1 at the concrete input `"ok"`. -/
theorem transformMCPResponse_truthy_primitive_shape_witness :
    (JSValue.str "ok").isPrimitive = true ∧ (JSValue.str "ok").truthy = true ∧
    (JSValue.getProp (transformMCPResponse (.str "ok")) "items").isArr = true ∧
    (JSValue.getProp (transformMCPResponse (.str "ok")) "success").isBool = true ∧
    JSValue.getProp (transformMCPResponse (.str "ok")) "_raw" = .str "ok" :=
  ⟨rfl, rfl, (transformMCPResponse_truthy_primitive_shape (.str "ok") rfl rfl).1,
   (transformMCPResponse_truthy_primitive_shape (.str "ok") rfl rfl).2.1,
   (transformMCPResponse_truthy_primitive_shape (.str "ok") rfl rfl).2.2⟩

/-- C2 counterexample: the Response Normalizer is not idempotent.  On the MCP
error envelope `(content := [], isError := true)` the first application
produces a record without the `_normalized` marker, so the second application
rebuilds a different record (it even rebinds `_raw` to the inner envelope). -/
theorem transformMCPResponse_not_idempotent_on_error_envelope :
    transformMCPResponse (transformMCPResponse mcpErrorEnvelopeEmpty) ≠
      transformMCPResponse mcpErrorEnvelopeEmpty := by
  intro h
  exact absurd (congrArg (fun w => (JSValue.getProp w "_normalized").truthy) h) (by decide)

open JSValue in
/-- C2 (amended): the Response Normalizer is idempotent on every *primitive*
input (null, undefined, booleans, numbers, strings): a second application
yields the first result unchanged.  On envelope and record inputs a second
application can produce a different record. -/
theorem transformMCPResponse_idempotent_on_primitives (v : JSValue)
    (hp : v.isPrimitive = true) :
    transformMCPResponse (transformMCPResponse v) = transformMCPResponse v := by
  cases v with
  | null => rfl
  | undefined => rfl
  | bool b => cases b <;> rfl
  | num n =>
    by_cases hn : n = 0
    · subst hn; rfl
    · have ht' : (n == 0) = false := by simpa using hn
      simp [transformMCPResponse, normalizeResponseStructure, getProp, setProp, setField,
        truthy, jsOr, isNullOrUndefined, isUndefined, isFalseVal, isStr, isArr, isObj,
        arrElems, hasKey, ht']
  | str s =>
    by_cases hs : s = ""
    · subst hs; rfl
    · have ht' : (s == "") = false := by simpa using hs
      simp [transformMCPResponse, normalizeResponseStructure, getProp, setProp, setField,
        truthy, jsOr, isNullOrUndefined, isUndefined, isFalseVal, isStr, isArr, isObj,
        arrElems, hasKey, ht']
  | arr xs => exact absurd hp (by simp [isPrimitive, isArr, isObj])
  | obj fs => exact absurd hp (by simp [isPrimitive, isArr, isObj])

/-- Witness for C2 at the concrete input `7`. -/
theorem transformMCPResponse_idempotent_on_primitives_witness :
    (JSValue.num 7).isPrimitive = true ∧
    transformMCPResponse (transformMCPResponse (.num 7)) = transformMCPResponse (.num 7) :=
  ⟨rfl, transformMCPResponse_idempotent_on_primitives (.num 7) rfl⟩

/-! ## Parameter Normalizer (`normalizeParameters`, tool-wrapper.ts:371–509) -/

/-- `Object.entries(v)`. -/
def entriesOf : JSValue → List (String × JSValue)
  | .obj fs => fs
  | .arr xs => xs.enum.map (fun p => (toString p.1, p.2))
  | _ => []

def typeofStr : JSValue → String
  | .null => "object"
  | .undefined => "undefined"
  | .bool _ => "boolean"
  | .num _ => "number"
  | .str _ => "string"
  | .arr _ => "object"
  | .obj _ => "object"

/-- JS `||` chain over candidate property names, where the empty string is
falsy. -/
def orKey (a b : Option String) : Option String :=
  match a with
  | some s => if s == "" then b else a
  | none => b

open JSValue in
/-- Wrap a scalar array item as a singleton record, picking the target key
from the item schema (tool-wrapper.ts:465–494): prefer a required string
property, then literally named `type`/`value`/`url`/`name`, then the first
string property, then the first property; fall back to key `value`. -/
def wrapScalarItem (itemSchema : JSValue) (item : JSValue) : JSValue :=
  if truthy (getProp itemSchema "properties") then
    let props := getProp itemSchema "properties"
    let propNames := (entriesOf props).map (fun p => p.1)
    let requiredProps := arrElems (getProp itemSchema "required")
    let stringProps := propNames.filter (fun p => eqStr (getProp (getProp props p) "type") "string")
    let targetProp :=
      orKey (stringProps.find? (fun p => requiredProps.any (fun r => eqStr r p)))
      (orKey (stringProps.find? (fun p => p == "type"))
      (orKey (stringProps.find? (fun p => p == "value"))
      (orKey (stringProps.find? (fun p => p == "url"))
      (orKey (stringProps.find? (fun p => p == "name"))
      (orKey stringProps.head? propNames.head?)))))
    match targetProp with
    | some p => if p == "" then .obj [("value", item)] else .obj [(p, item)]
    | none => .obj [("value", item)]
  else .obj [("value", item)]

open JSValue in
/-- One iteration of the schema-property loop of `normalizeParameters`
(tool-wrapper.ts:425–501): missing-required warning, scalar type coercion,
and wrapping scalar items of a declared `array of object`. -/
def coerceOneProp (schema : JSValue) (acc : JSValue × List String)
    (kv : String × JSValue) : JSValue × List String :=
  let normalized := acc.1
  let key := kv.1
  let prop := kv.2
  let value := getProp normalized key
  let ws1 := acc.2 ++
    (if (arrElems (getProp schema "required")).any (fun r => eqStr r key)
        && isUndefined value
     then ["Missing required field: " ++ key] else [])
  if !(isUndefined value) && truthy (getProp prop "type") then
    let ptype := getProp prop "type"
    let step1 : JSValue × List String :=
      if eqStr ptype "array" && !(isArr value) then
        (setProp normalized key (.arr [value]), ws1 ++ ["Coerced " ++ key ++ " to array"])
      else if eqStr ptype "string" && !(isStr value) then
        (setProp normalized key (.str (jsToString value)), ws1 ++ ["Coerced " ++ key ++ " to string"])
      else if eqStr ptype "number" && !(isNum value) then
        (match jsToNumber value with
         | some m => (setProp normalized key (.num m), ws1 ++ ["Coerced " ++ key ++ " to number"])
         | none => (normalized, ws1))
      else if eqStr ptype "boolean" && !(isBool value) then
        (setProp normalized key (.bool (truthy value)), ws1 ++ ["Coerced " ++ key ++ " to boolean"])
      else if eqStr ptype "object" && !(isObjectType value) then
        (normalized, ws1 ++ ["Expected object for " ++ key ++ ", got " ++ typeofStr value])
      else (normalized, ws1)
    let n2 := step1.1
    let ws2 := step1.2
    if eqStr ptype "array" && isArr (getProp n2 key) && truthy (getProp prop "items") then
      let items := arrElems (getProp n2 key)
      let itemSchema := getProp prop "items"
      if eqStr (getProp itemSchema "type") "object" && decide (0 < items.length)
          && !(isObjectType (items.headD .undefined)) then
        let wrapped := items.map (fun item =>
          if isObjectType item then item else wrapScalarItem itemSchema item)
        (setProp n2 key (.arr wrapped), ws2 ++ ["Wrapped " ++ key ++ " items as objects using schema"])
      else (n2, ws2)
    else (n2, ws2)
  else (normalized, ws1)

/-- The result record of `normalizeParameters`. -/
structure NormalizedParams where
  normalized : JSValue
  warnings : List String
  isValid : Bool

open JSValue in
/-- `normalizeParameters(toolName, args, schema)` (tool-wrapper.ts:371).
Null/undefined become an empty record; strings and arrays are wrapped by the
tool-name heuristic (numbers and booleans pass through); the value is
deep-cloned by a JSON round trip; schema-declared properties are coerced. -/
def normalizeParameters (toolName : String) (args : JSValue) (schema : JSValue) :
    NormalizedParams :=
  let s0 : JSValue × List String :=
    if isNullOrUndefined args then (.obj [], ["Args was null/undefined, using empty object"])
    else (args, [])
  let s1 : JSValue × List String :=
    if !(isObjectType s0.1) || isArr s0.1 then
      match s0.1 with
      | .str s =>
        if strIncludes toolName "scrape" || strIncludes toolName "crawl" then
          (.obj [("url", .str s)],
           s0.2 ++ ["Wrapped string as \x7b url: \"" ++ s ++ "\" \x7d"])
        else if strIncludes toolName "search" then
          (.obj [("query", .str s)],
           s0.2 ++ ["Wrapped string as \x7b query: \"" ++ s ++ "\" \x7d"])
        else if strIncludes toolName "extract" then
          (.obj [("urls", .arr [.str s])],
           s0.2 ++ ["Wrapped string as \x7b urls: [\"" ++ s ++ "\"] \x7d"])
        else
          (.obj [("input", args)], s0.2 ++ ["Wrapped primitive as \x7b input: ... \x7d"])
      | .arr xs =>
        if strIncludes toolName "extract" || strIncludes toolName "batch" then
          (.obj [("urls", .arr xs)], s0.2 ++ ["Wrapped array as \x7b urls: [...] \x7d"])
        else
          (.obj [("items", .arr xs)], s0.2 ++ ["Wrapped array as \x7b items: [...] \x7d"])
      | _ => s0
    else s0
  let s2 : JSValue × List String :=
    match jsonRoundTrip s1.1 with
    | some v => (v, s1.2)
    | none => (s1.1, s1.2 ++ ["Failed to clone args, using original"])
  let s3 : JSValue × List String :=
    if truthy (getProp schema "properties") then
      (entriesOf (getProp schema "properties")).foldl (coerceOneProp schema) s2
    else s2
  { normalized := s3.1, warnings := s3.2,
    isValid := (s3.2.filter (fun w => strIncludes w "Missing required")).length == 0 }

/-! ### Round-trip facts about the JSON clone used by the normalizer -/

theorem parseStringBody_escape (cs rest : List Char) :
    parseStringBody (escapeChars cs ++ '"' :: rest) = some (cs, rest) := by
  induction cs with
  | nil =>
    rw [show escapeChars [] ++ '"' :: rest = '"' :: rest from rfl, parseStringBody.eq_def]
    simp
  | cons c cs ih =>
    by_cases h1 : c = '"'
    · subst h1
      rw [show escapeChars ('"' :: cs) = '\\' :: '"' :: escapeChars cs from rfl,
        List.cons_append, List.cons_append, parseStringBody.eq_def]
      simp [unesc, ih]
    · by_cases h2 : c = '\\'
      · subst h2
        rw [show escapeChars ('\\' :: cs) = '\\' :: '\\' :: escapeChars cs from rfl,
          List.cons_append, List.cons_append, parseStringBody.eq_def]
        simp [unesc, ih]
      · by_cases h3 : c = '\n'
        · subst h3
          rw [show escapeChars ('\n' :: cs) = '\\' :: 'n' :: escapeChars cs from rfl,
            List.cons_append, List.cons_append, parseStringBody.eq_def]
          simp [unesc, ih]
        · by_cases h4 : c = '\t'
          · subst h4
            rw [show escapeChars ('\t' :: cs) = '\\' :: 't' :: escapeChars cs from rfl,
              List.cons_append, List.cons_append, parseStringBody.eq_def]
            simp [unesc, ih]
          · by_cases h5 : c = '\r'
            · subst h5
              rw [show escapeChars ('\r' :: cs) = '\\' :: 'r' :: escapeChars cs from rfl,
                List.cons_append, List.cons_append, parseStringBody.eq_def]
              simp [unesc, ih]
            · have e1 : (c == '"') = false := by simpa using h1
              have e2 : (c == '\\') = false := by simpa using h2
              have e3 : (c == '\n') = false := by simpa using h3
              have e4 : (c == '\t') = false := by simpa using h4
              have e5 : (c == '\r') = false := by simpa using h5
              have hesc : escapeChars (c :: cs) = c :: escapeChars cs := by
                simp [escapeChars, escChar, e1, e2, e3, e4, e5]
              rw [hesc, List.cons_append, parseStringBody.eq_def]
              simp [e1, e2, ih]

/-- Parsing a serialized string literal. -/
theorem parseVal_strLit (f : Nat) (sd rest : List Char) :
    parseVal (f + 1) ('"' :: (escapeChars sd ++ '"' :: rest)) =
      some (.str (String.mk sd), rest) := by
  rw [parseVal.eq_def]
  simp [skipWs, parseStringBody_escape]

/-- Parsing a serialized one-element string array. -/
theorem parseVal_strArr (f : Nat) (sd rest : List Char) :
    parseVal (f + 3) ('[' :: '"' :: (escapeChars sd ++ '"' :: ']' :: rest)) =
      some (.arr [.str (String.mk sd)], rest) := by
  have h := parseVal_strLit f sd (']' :: rest)
  rw [parseVal.eq_def]
  simp only [skipWs]
  simp [parseElems, h, skipWs]

/-- Parsing a serialized single-field object, given a parse of its value. -/
theorem parseVal_singleFieldObj (g : Nat) (kd : List Char)
    (hk : escapeChars kd = kd) (vcs rest : List Char) (v : JSValue)
    (hv : parseVal g (vcs ++ '\x7d' :: rest) = some (v, '\x7d' :: rest)) :
    parseVal (g + 2) ('\x7b' :: '"' :: (kd ++ '"' :: ':' :: (vcs ++ '\x7d' :: rest))) =
      some (.obj [(String.mk kd, v)], rest) := by
  have hkey := parseStringBody_escape kd (':' :: (vcs ++ '\x7d' :: rest))
  rw [hk] at hkey
  rw [parseVal.eq_def]
  simp [parseMembers, skipWs, hkey, hv]

/-- The serialized form of a single-field object holding a string. -/
theorem jsonStringifyChars_strField (k s : String) :
    jsonStringifyChars (.obj [(k, .str s)]) =
      some ('\x7b' :: '"' :: (escapeChars k.data ++ '"' :: ':' ::
        ('"' :: (escapeChars s.data ++ ['"']) ++ '\x7d' :: []))) := by
  rw [jsonStringifyChars.eq_def]
  simp [jsonStringifyFields, jsonStringifyChars, joinChars]

/-- The serialized form of a single-field object holding a one-string array. -/
theorem jsonStringifyChars_strArrField (k s : String) :
    jsonStringifyChars (.obj [(k, .arr [.str s])]) =
      some ('\x7b' :: '"' :: (escapeChars k.data ++ '"' :: ':' ::
        ('[' :: '"' :: (escapeChars s.data ++ '"' :: ']' :: []) ++ '\x7d' :: []))) := by
  rw [jsonStringifyChars.eq_def]
  simp [jsonStringifyFields, jsonStringifyChars, jsonStringifyElems, joinChars]

/-- Round trip of `\x7b k: s \x7d` for a plain key `k` and any string `s`. -/
theorem jsonRoundTrip_strField (k s : String) (hk : escapeChars k.data = k.data) :
    jsonRoundTrip (.obj [(k, .str s)]) = some (.obj [(k, .str s)]) := by
  rw [jsonRoundTrip, jsonStringifyChars_strField k s, hk]
  rw [show Option.bind (some ('\x7b' :: '"' :: (k.data ++ '"' :: ':' ::
        ('"' :: (escapeChars s.data ++ ['"']) ++ '\x7d' :: [])))) jsonParseChars
      = jsonParseChars ('\x7b' :: '"' :: (k.data ++ '"' :: ':' ::
        ('"' :: (escapeChars s.data ++ ['"']) ++ '\x7d' :: []))) from rfl]
  rw [jsonParseChars]
  have hlen : ('\x7b' :: '"' :: (k.data ++ '"' :: ':' ::
      ('"' :: (escapeChars s.data ++ ['"']) ++ '\x7d' :: []))).length + 2
      = ((k.data.length + (escapeChars s.data).length + 6) + 1) + 2 := by
    simp; omega
  rw [hlen]
  have hv := parseVal_strLit (k.data.length + (escapeChars s.data).length + 6) s.data ['\x7d']
  have hobj := parseVal_singleFieldObj
    ((k.data.length + (escapeChars s.data).length + 6) + 1) k.data hk
    ('"' :: (escapeChars s.data ++ ['"'])) [] (.str (String.mk s.data)) (by simpa using hv)
  rw [show ('"' :: (escapeChars s.data ++ ['"']) ++ '\x7d' :: [])
      = (('"' :: (escapeChars s.data ++ ['"'])) ++ '\x7d' :: ([] : List Char)) from by simp]
  rw [hobj]
  simp [skipWs]

/-- Round trip of `\x7b k: [s] \x7d` for a plain key `k` and any string `s`. -/
theorem jsonRoundTrip_strArrField (k s : String) (hk : escapeChars k.data = k.data) :
    jsonRoundTrip (.obj [(k, .arr [.str s])]) = some (.obj [(k, .arr [.str s])]) := by
  rw [jsonRoundTrip, jsonStringifyChars_strArrField k s, hk]
  rw [show Option.bind (some ('\x7b' :: '"' :: (k.data ++ '"' :: ':' ::
        ('[' :: '"' :: (escapeChars s.data ++ '"' :: ']' :: []) ++ '\x7d' :: [])))) jsonParseChars
      = jsonParseChars ('\x7b' :: '"' :: (k.data ++ '"' :: ':' ::
        ('[' :: '"' :: (escapeChars s.data ++ '"' :: ']' :: []) ++ '\x7d' :: []))) from rfl]
  rw [jsonParseChars]
  have hlen : ('\x7b' :: '"' :: (k.data ++ '"' :: ':' ::
      ('[' :: '"' :: (escapeChars s.data ++ '"' :: ']' :: []) ++ '\x7d' :: []))).length + 2
      = ((k.data.length + (escapeChars s.data).length + 6) + 3) + 2 := by
    simp; omega
  rw [hlen]
  have hv := parseVal_strArr (k.data.length + (escapeChars s.data).length + 6) s.data ['\x7d']
  have hobj := parseVal_singleFieldObj
    ((k.data.length + (escapeChars s.data).length + 6) + 3) k.data hk
    ('[' :: '"' :: (escapeChars s.data ++ '"' :: ']' :: []))
    [] (.arr [.str (String.mk s.data)]) (by simpa using hv)
  rw [show ('[' :: '"' :: (escapeChars s.data ++ '"' :: ']' :: []) ++ '\x7d' :: [])
      = (('[' :: '"' :: (escapeChars s.data ++ '"' :: ']' :: [])) ++ '\x7d' :: ([] : List Char)) from by simp]
  rw [hobj]
  simp [skipWs]

/-- C3 counterexample: a number argument is not wrapped into a record.  For
tool `mcp_foo` and argument `5` the claim demands `(input := 5)`, but the
normalizer leaves the bare number unchanged, so the normalized arguments are
not a record. -/
theorem normalizeParameters_number_unwrapped :
    (normalizeParameters "mcp_foo" (.num 5) .undefined).normalized = .num 5 ∧
    ((normalizeParameters "mcp_foo" (.num 5) .undefined).normalized).isObj = false :=
  ⟨rfl, rfl⟩

open JSValue in
/-- C3 (amended): for every tool name and every *string* argument, the
Parameter Normalizer wraps the string into a record by the name heuristic —
`url` for names containing `scrape`/`crawl`, else `query` for `search`, else
a singleton `urls` array for `extract`, else `input` — so the result is a
record.  Numbers and booleans are passed through unwrapped. -/
theorem normalizeParameters_string_heuristic (n s : String) :
    (normalizeParameters n (.str s) .undefined).normalized =
      (if strIncludes n "scrape" || strIncludes n "crawl" then .obj [("url", .str s)]
       else if strIncludes n "search" then .obj [("query", .str s)]
       else if strIncludes n "extract" then .obj [("urls", .arr [.str s])]
       else .obj [("input", .str s)]) ∧
    ((normalizeParameters n (.str s) .undefined).normalized).isObj = true := by
  have hku : escapeChars "url".data = "url".data := rfl
  have hkq : escapeChars "query".data = "query".data := rfl
  have hkr : escapeChars "urls".data = "urls".data := rfl
  have hki : escapeChars "input".data = "input".data := rfl
  cases hsc : (strIncludes n "scrape" || strIncludes n "crawl") with
  | true =>
    simp [normalizeParameters, hsc, jsonRoundTrip_strField _ _ hku,
      getProp, truthy, isNullOrUndefined, isObjectType, isArr, isObj]
  | false =>
    cases hse : strIncludes n "search" with
    | true =>
      simp [normalizeParameters, hsc, hse, jsonRoundTrip_strField _ _ hkq,
        getProp, truthy, isNullOrUndefined, isObjectType, isArr, isObj]
    | false =>
      cases hex : strIncludes n "extract" with
      | true =>
        simp [normalizeParameters, hsc, hse, hex, jsonRoundTrip_strArrField _ _ hkr,
          getProp, truthy, isNullOrUndefined, isObjectType, isArr, isObj]
      | false =>
        simp [normalizeParameters, hsc, hse, hex, jsonRoundTrip_strField _ _ hki,
          getProp, truthy, isNullOrUndefined, isObjectType, isArr, isObj]

/-! ## MCP Bridge (`MCPToolBridge`, tool-wrapper.ts:700–993)

The bridge's `execute` call on the underlying MCP tool is external I/O; each
`handleRequest` takes the outcome of that invocation as an oracle argument
(`Except` error-message / raw result).  The oracle is consulted only on the
non-short-circuited path, so "the tool is not invoked" is expressed as the
result being independent of the oracle.  Clock reads (`Date.now()`) are the
`t0`/`t1` arguments. -/

def lookupKV {α : Type} (m : List (String × α)) (k : String) : Option α :=
  (m.find? (fun e => e.1 == k)).map (fun e => e.2)

def insertKV {α : Type} : List (String × α) → String → α → List (String × α)
  | [], k, v => [(k, v)]
  | e :: m, k, v => if e.1 == k then (k, v) :: m else e :: insertKV m k v

def eraseKV {α : Type} (m : List (String × α)) (k : String) : List (String × α) :=
  m.filter (fun e => !(e.1 == k))

theorem lookupKV_insert_self {α : Type} (m : List (String × α)) (k : String) (v : α) :
    lookupKV (insertKV m k v) k = some v := by
  induction m with
  | nil => simp [insertKV, lookupKV]
  | cons e m ih =>
    by_cases h : e.1 = k
    · simp [insertKV, lookupKV, h]
    · have h' : (e.1 == k) = false := by simpa using h
      simp [insertKV, lookupKV, h', List.find?] at ih ⊢
      exact ih

theorem lookupKV_erase_self {α : Type} (m : List (String × α)) (k : String) :
    lookupKV (eraseKV m k) k = none := by
  induction m with
  | nil => simp [eraseKV, lookupKV]
  | cons e m ih =>
    by_cases h : e.1 = k
    · simp only [eraseKV, List.filter] at ih ⊢
      simp [h, ih]
    · have h' : (e.1 == k) = false := by simpa using h
      simp only [eraseKV, List.filter] at ih ⊢
      simp [h', lookupKV, List.find?]

/-- `MCPToolRequest` (tool-wrapper.ts:338). -/
structure MCPToolRequest where
  toolName : String
  args : JSValue
  callId : String

/-- `MCPToolResponse` (tool-wrapper.ts:344). -/
structure MCPToolResponse where
  callId : String
  data : Option JSValue
  error : Option String

/-- `MCPToolCallRecord` (tool-wrapper.ts:350). -/
structure MCPToolCallRecord where
  toolName : String
  args : JSValue
  normalizedArgs : JSValue
  rawResult : Option JSValue
  result : Option JSValue
  error : Option String
  executionTimeMs : Option Nat

/-- The mutable state of an `MCPToolBridge`.  Registered tools are carried by
name; every registered descriptor has an `execute` function (the constructor
only caches callable MCP tools). -/
structure BridgeState where
  mcpTools : List String
  toolSchemas : List (String × JSValue)
  learnedOutputSchemas : List (String × JSValue)
  toolCallRecords : List MCPToolCallRecord
  failedCallSignatures : List (String × Nat)
  parameterWarnings : List (String × List String)

/-- `MCPToolBridge.MAX_RETRIES` (tool-wrapper.ts:707). -/
def MAX_RETRIES : Nat := 3

/-- `getCallSignature` (tool-wrapper.ts:731): tool name joined with the JSON
of the arguments, falling back to the clock on serialization failure. -/
def getCallSignature (toolName : String) (args : JSValue) (now : Nat) : String :=
  match jsonStringify args with
  | some s => toolName ++ ":" ++ s
  | none => toolName ++ ":" ++ toString now

mutual
/-- `inferSchema(value, depth)` (tool-wrapper.ts:919): type tag plus recursive
properties / item type, depth-limited, skipping `_raw` / `_normalized`. -/
def inferSchema : JSValue → Nat → JSValue
  | value, depth =>
    if depth > 3 then .obj [("type", .str "any")]
    else match value with
      | .null => .obj [("type", .str "null")]
      | .undefined => .obj [("type", .str "undefined")]
      | .arr xs =>
        .obj [("type", .str "array"),
          ("itemType", match xs with
            | x :: _ => inferSchema x (depth + 1)
            | [] => .obj [("type", .str "unknown")]),
          ("length", .num xs.length)]
      | .obj fs => .obj [("type", .str "object"), ("properties", .obj (inferSchemaFields fs depth))]
      | v => .obj [("type", .str (typeofStr v))]

def inferSchemaFields : List (String × JSValue) → Nat → List (String × JSValue)
  | [], _ => []
  | (k, v) :: fs, depth =>
    if k == "_raw" || k == "_normalized" then inferSchemaFields fs depth
    else (k, inferSchema v (depth + 1)) :: inferSchemaFields fs depth
end

open JSValue in
/-- `isMoreDetailed(a, b)` (tool-wrapper.ts:946). -/
def isMoreDetailed (a b : JSValue) : Bool :=
  if !(truthy b) then true
  else if eqStr (getProp a "type") "object" && eqStr (getProp b "type") "object" then
    (entriesOf (jsOr (getProp a "properties") (.obj []))).length >
      (entriesOf (jsOr (getProp b "properties") (.obj []))).length
  else if eqStr (getProp a "type") "array" && eqStr (getProp b "type") "array" then
    (match jsToNumber (jsOr (getProp a "length") (.num 0)),
           jsToNumber (jsOr (getProp b "length") (.num 0)) with
     | some x, some y => x > y
     | _, _ => false)
  else false

open JSValue in
/-- `learnOutputSchema(toolName, response)` (tool-wrapper.ts:899): skip error
responses; update the cached schema iff none exists or the new one is more
detailed. -/
def learnOutputSchemaUpd (st : BridgeState) (toolName : String) (response : JSValue) :
    BridgeState :=
  if !(truthy response) || isFalseVal (getProp response "success")
      || truthy (getProp response "error") then st
  else
    let schema := inferSchema response 0
    match lookupKV st.learnedOutputSchemas toolName with
    | none =>
      {st with learnedOutputSchemas := insertKV st.learnedOutputSchemas toolName schema}
    | some existing =>
      if isMoreDetailed schema existing then
        {st with learnedOutputSchemas := insertKV st.learnedOutputSchemas toolName schema}
      else st

/-- The warnings bookkeeping at the start of `handleRequest`
(tool-wrapper.ts:772): store normalization warnings when there are any. -/
def withWarnings (st : BridgeState) (toolName : String) (ws : List String) : BridgeState :=
  if ws.isEmpty then st
  else {st with parameterWarnings := insertKV st.parameterWarnings toolName ws}

/-- `MCPToolBridge.handleRequest(request)` (tool-wrapper.ts:758): normalize
parameters, check the circuit breaker, execute, transform, learn, and track
failures by call signature. -/
def handleRequest (st : BridgeState) (oracle : Except String JSValue)
    (req : MCPToolRequest) (t0 t1 : Nat) : BridgeState × MCPToolResponse :=
  let schema := (lookupKV st.toolSchemas req.toolName).getD .undefined
  let np := normalizeParameters req.toolName req.args schema
  let st1 := withWarnings st req.toolName np.warnings
  let callSignature := getCallSignature req.toolName np.normalized t0
  let failCount := (lookupKV st1.failedCallSignatures callSignature).getD 0
  if failCount ≥ MAX_RETRIES then
    (st1, {callId := req.callId, data := none,
           error := some ("Tool " ++ req.toolName ++ " failed " ++ toString failCount
             ++ " times with same parameters. Check parameter format.")})
  else
    match (if req.toolName ∈ st1.mcpTools then oracle
           else Except.error ("Unknown MCP tool: " ++ req.toolName)) with
    | .ok rawResult =>
      let transformedResult := transformMCPResponse rawResult
      let record : MCPToolCallRecord :=
        {toolName := req.toolName, args := req.args, normalizedArgs := np.normalized,
         rawResult := some rawResult, result := some transformedResult,
         error := none, executionTimeMs := some (t1 - t0)}
      let st2 := {st1 with
        toolCallRecords := st1.toolCallRecords ++ [record]
        failedCallSignatures := eraseKV st1.failedCallSignatures callSignature}
      let st3 := learnOutputSchemaUpd st2 req.toolName transformedResult
      (st3, {callId := req.callId, data := some transformedResult, error := none})
    | .error msg =>
      let record : MCPToolCallRecord :=
        {toolName := req.toolName, args := req.args, normalizedArgs := np.normalized,
         rawResult := none, result := none, error := some msg,
         executionTimeMs := some (t1 - t0)}
      let st2 := {st1 with
        toolCallRecords := st1.toolCallRecords ++ [record]
        failedCallSignatures := insertKV st1.failedCallSignatures callSignature (failCount + 1)}
      let enhancedError :=
        if strIncludes msg "validation failed" || strIncludes msg "Invalid input" then
          msg ++ ". Original args: " ++ ((jsonStringify req.args).getD "undefined")
            ++ ", Normalized: " ++ ((jsonStringify np.normalized).getD "undefined")
        else msg
      (st2, {callId := req.callId, data := none, error := some enhancedError})

/-- The failure signature `handleRequest` computes for a request in a given
state and at a given clock reading. -/
def requestSignature (st : BridgeState) (req : MCPToolRequest) (t0 : Nat) : String :=
  getCallSignature req.toolName
    (normalizeParameters req.toolName req.args
      ((lookupKV st.toolSchemas req.toolName).getD .undefined)).normalized t0

theorem withWarnings_failedCallSignatures (st : BridgeState) (n : String) (ws : List String) :
    (withWarnings st n ws).failedCallSignatures = st.failedCallSignatures := by
  unfold withWarnings; split <;> rfl

theorem withWarnings_mcpTools (st : BridgeState) (n : String) (ws : List String) :
    (withWarnings st n ws).mcpTools = st.mcpTools := by
  unfold withWarnings; split <;> rfl

theorem withWarnings_toolSchemas (st : BridgeState) (n : String) (ws : List String) :
    (withWarnings st n ws).toolSchemas = st.toolSchemas := by
  unfold withWarnings; split <;> rfl

theorem withWarnings_toolCallRecords (st : BridgeState) (n : String) (ws : List String) :
    (withWarnings st n ws).toolCallRecords = st.toolCallRecords := by
  unfold withWarnings; split <;> rfl

theorem handleRequest_static (st : BridgeState) (o : Except String JSValue)
    (req : MCPToolRequest) (t0 t1 : Nat) :
    (handleRequest st o req t0 t1).1.toolSchemas = st.toolSchemas ∧
    (handleRequest st o req t0 t1).1.mcpTools = st.mcpTools := by
  unfold handleRequest learnOutputSchemaUpd
  dsimp only
  repeat' split
  all_goals constructor <;>
    simp [withWarnings_toolSchemas, withWarnings_mcpTools]

theorem learnOutputSchemaUpd_failedCallSignatures (st : BridgeState) (n : String) (r : JSValue) :
    (learnOutputSchemaUpd st n r).failedCallSignatures = st.failedCallSignatures := by
  unfold learnOutputSchemaUpd
  dsimp only
  repeat' split
  all_goals rfl

theorem requestSignature_stable (st st' : BridgeState) (req : MCPToolRequest) (t0 t0' : Nat)
    (hts : st'.toolSchemas = st.toolSchemas)
    (hs : (jsonStringify (normalizeParameters req.toolName req.args
        ((lookupKV st.toolSchemas req.toolName).getD .undefined)).normalized).isSome = true) :
    requestSignature st' req t0' = requestSignature st req t0 := by
  unfold requestSignature getCallSignature
  rw [hts]
  obtain ⟨s, hs'⟩ := Option.isSome_iff_exists.mp hs
  rw [hs']

theorem handleRequest_blocked_eq (st : BridgeState) (o : Except String JSValue)
    (req : MCPToolRequest) (t0 t1 : Nat)
    (h : MAX_RETRIES ≤ (lookupKV st.failedCallSignatures (requestSignature st req t0)).getD 0) :
    handleRequest st o req t0 t1 =
      (withWarnings st req.toolName
         (normalizeParameters req.toolName req.args
           ((lookupKV st.toolSchemas req.toolName).getD .undefined)).warnings,
       {callId := req.callId, data := none,
        error := some ("Tool " ++ req.toolName ++ " failed "
          ++ toString ((lookupKV st.failedCallSignatures (requestSignature st req t0)).getD 0)
          ++ " times with same parameters. Check parameter format.")}) := by
  unfold requestSignature at h ⊢
  unfold handleRequest
  dsimp only
  rw [withWarnings_failedCallSignatures, if_pos h]

theorem handleRequest_fail_step (st : BridgeState) (e : String)
    (req : MCPToolRequest) (t0 t1 : Nat)
    (h : (lookupKV st.failedCallSignatures (requestSignature st req t0)).getD 0 < MAX_RETRIES) :
    (handleRequest st (.error e) req t0 t1).1.failedCallSignatures =
      insertKV st.failedCallSignatures (requestSignature st req t0)
        (((lookupKV st.failedCallSignatures (requestSignature st req t0)).getD 0) + 1) := by
  unfold requestSignature at h ⊢
  unfold handleRequest
  dsimp only
  rw [withWarnings_failedCallSignatures, if_neg (Nat.not_le.mpr h), ← apply_ite Except.error]

theorem handleRequest_success_clears (st : BridgeState) (raw : JSValue)
    (req : MCPToolRequest) (t0 t1 : Nat)
    (hm : req.toolName ∈ st.mcpTools)
    (h : (lookupKV st.failedCallSignatures (requestSignature st req t0)).getD 0 < MAX_RETRIES) :
    lookupKV (handleRequest st (.ok raw) req t0 t1).1.failedCallSignatures
      (requestSignature st req t0) = none := by
  unfold requestSignature at h ⊢
  unfold handleRequest
  dsimp only
  rw [withWarnings_failedCallSignatures, if_neg (Nat.not_le.mpr h), withWarnings_mcpTools,
    if_pos hm]
  dsimp only
  rw [learnOutputSchemaUpd_failedCallSignatures]
  exact lookupKV_erase_self _ _

theorem handleRequest_blocked_facts (st : BridgeState) (o : Except String JSValue)
    (req : MCPToolRequest) (t0 t1 : Nat)
    (h : MAX_RETRIES ≤ (lookupKV st.failedCallSignatures (requestSignature st req t0)).getD 0) :
    (handleRequest st o req t0 t1).1.toolCallRecords = st.toolCallRecords ∧
    (handleRequest st o req t0 t1).1.failedCallSignatures = st.failedCallSignatures ∧
    (handleRequest st o req t0 t1).2.error.isSome = true ∧
    ∀ o', handleRequest st o' req t0 t1 = handleRequest st o req t0 t1 := by
  refine ⟨?_, ?_, ?_, ?_⟩
  · rw [handleRequest_blocked_eq st o req t0 t1 h]
    exact withWarnings_toolCallRecords _ _ _
  · rw [handleRequest_blocked_eq st o req t0 t1 h]
    exact withWarnings_failedCallSignatures _ _ _
  · rw [handleRequest_blocked_eq st o req t0 t1 h]
    rfl
  · intro o'
    rw [handleRequest_blocked_eq st o' req t0 t1 h, handleRequest_blocked_eq st o req t0 t1 h]

/-- C4: after `MAX_RETRIES` (= 3) consecutive failures of `handleRequest`
with the same (tool name, normalized arguments) signature — starting from a
state with no recorded failures for that signature — the failure count is 3,
and the next `handleRequest` with that signature returns an error response
without invoking the tool's `execute` (the result is independent of the
execution oracle and no record is appended); a successful call removes the
failure-count entry for its signature. -/
theorem circuitBreaker_opens_after_three_failures
    (st : BridgeState) (req : MCPToolRequest) (e1 e2 e3 : String)
    (o : Except String JSValue) (t1 t2 t3 t4 t5 t6 t7 t8 : Nat)
    (hser : (jsonStringify (normalizeParameters req.toolName req.args
        ((lookupKV st.toolSchemas req.toolName).getD .undefined)).normalized).isSome = true)
    (h0 : lookupKV st.failedCallSignatures (requestSignature st req t1) = none) :
    let s1 := (handleRequest st (.error e1) req t1 t2).1
    let s2 := (handleRequest s1 (.error e2) req t3 t4).1
    let s3 := (handleRequest s2 (.error e3) req t5 t6).1
    (lookupKV s3.failedCallSignatures (requestSignature s3 req t7)).getD 0 = 3 ∧
    (handleRequest s3 o req t7 t8).2.error.isSome = true ∧
    (handleRequest s3 o req t7 t8).1.toolCallRecords = s3.toolCallRecords ∧
    (∀ o', handleRequest s3 o' req t7 t8 = handleRequest s3 o req t7 t8) ∧
    (∀ (stv : BridgeState) (raw : JSValue) (u0 u1 : Nat),
      req.toolName ∈ stv.mcpTools →
      (lookupKV stv.failedCallSignatures (requestSignature stv req u0)).getD 0 < MAX_RETRIES →
      lookupKV (handleRequest stv (.ok raw) req u0 u1).1.failedCallSignatures
        (requestSignature stv req u0) = none) := by
  dsimp only
  have hts1 : (handleRequest st (.error e1) req t1 t2).1.toolSchemas = st.toolSchemas :=
    (handleRequest_static st (.error e1) req t1 t2).1
  have h00 : (lookupKV st.failedCallSignatures (requestSignature st req t1)).getD 0 = 0 := by
    rw [h0]; rfl
  have hf1 := handleRequest_fail_step st e1 req t1 t2 (by rw [h00]; decide)
  rw [h00] at hf1
  have hsig1 : requestSignature (handleRequest st (.error e1) req t1 t2).1 req t3 =
      requestSignature st req t1 :=
    requestSignature_stable st _ req t1 t3 hts1 hser
  have hc1 : (lookupKV (handleRequest st (.error e1) req t1 t2).1.failedCallSignatures
      (requestSignature (handleRequest st (.error e1) req t1 t2).1 req t3)).getD 0 = 1 := by
    rw [hsig1, hf1, lookupKV_insert_self]; rfl
  have hts2 : (handleRequest (handleRequest st (.error e1) req t1 t2).1 (.error e2)
      req t3 t4).1.toolSchemas = st.toolSchemas := by
    rw [(handleRequest_static _ (.error e2) req t3 t4).1, hts1]
  have hf2 := handleRequest_fail_step (handleRequest st (.error e1) req t1 t2).1 e2 req t3 t4
    (by rw [hc1]; decide)
  rw [hc1, hsig1] at hf2
  have hsig2 : requestSignature (handleRequest (handleRequest st (.error e1) req t1 t2).1
      (.error e2) req t3 t4).1 req t5 = requestSignature st req t1 :=
    requestSignature_stable st _ req t1 t5 hts2 hser
  have hc2 : (lookupKV (handleRequest (handleRequest st (.error e1) req t1 t2).1 (.error e2)
      req t3 t4).1.failedCallSignatures
      (requestSignature (handleRequest (handleRequest st (.error e1) req t1 t2).1 (.error e2)
        req t3 t4).1 req t5)).getD 0 = 2 := by
    rw [hsig2, hf2, lookupKV_insert_self]; rfl
  have hts3 : (handleRequest (handleRequest (handleRequest st (.error e1) req t1 t2).1
      (.error e2) req t3 t4).1 (.error e3) req t5 t6).1.toolSchemas = st.toolSchemas := by
    rw [(handleRequest_static _ (.error e3) req t5 t6).1, hts2]
  have hf3 := handleRequest_fail_step (handleRequest (handleRequest st (.error e1) req t1 t2).1
    (.error e2) req t3 t4).1 e3 req t5 t6 (by rw [hc2]; decide)
  rw [hc2, hsig2] at hf3
  have hsig3 : requestSignature (handleRequest (handleRequest (handleRequest st (.error e1)
      req t1 t2).1 (.error e2) req t3 t4).1 (.error e3) req t5 t6).1 req t7 =
      requestSignature st req t1 :=
    requestSignature_stable st _ req t1 t7 hts3 hser
  have hc3 : (lookupKV (handleRequest (handleRequest (handleRequest st (.error e1) req t1 t2).1
      (.error e2) req t3 t4).1 (.error e3) req t5 t6).1.failedCallSignatures
      (requestSignature (handleRequest (handleRequest (handleRequest st (.error e1) req t1 t2).1
        (.error e2) req t3 t4).1 (.error e3) req t5 t6).1 req t7)).getD 0 = 3 := by
    rw [hsig3, hf3, lookupKV_insert_self]; rfl
  have hge : MAX_RETRIES ≤ (lookupKV (handleRequest (handleRequest (handleRequest st
      (.error e1) req t1 t2).1 (.error e2) req t3 t4).1 (.error e3) req t5 t6).1.failedCallSignatures
      (requestSignature (handleRequest (handleRequest (handleRequest st (.error e1) req t1 t2).1
        (.error e2) req t3 t4).1 (.error e3) req t5 t6).1 req t7)).getD 0 := by
    rw [hc3]; decide
  obtain ⟨hb1, hb2, hb3, hb4⟩ := handleRequest_blocked_facts _ o req t7 t8 hge
  exact ⟨hc3, hb3, hb1, hb4, fun stv raw u0 u1 hm hlt =>
    handleRequest_success_clears stv raw req u0 u1 hm hlt⟩

/-- C9: when `handleRequest` is short-circuited by the circuit breaker (the
failure count for the request's signature is at least `MAX_RETRIES` = 3), the
bridge state is unchanged in the claimed components: no tool-call record is
appended, the failure counts map is untouched, and the tool's `execute` is
not invoked (the result is independent of the execution oracle); an error
response is returned. -/
theorem handleRequest_short_circuit_state_unchanged (st : BridgeState)
    (o : Except String JSValue) (req : MCPToolRequest) (t0 t1 : Nat)
    (h : MAX_RETRIES ≤ (lookupKV st.failedCallSignatures (requestSignature st req t0)).getD 0) :
    (handleRequest st o req t0 t1).1.toolCallRecords = st.toolCallRecords ∧
    (handleRequest st o req t0 t1).1.failedCallSignatures = st.failedCallSignatures ∧
    (handleRequest st o req t0 t1).2.error.isSome = true ∧
    ∀ o', handleRequest st o' req t0 t1 = handleRequest st o req t0 t1 :=
  handleRequest_blocked_facts st o req t0 t1 h

/-- A bridge with one registered tool and no history. -/
def bridgeWitnessState : BridgeState := ⟨["mcp_t"], [], [], [], [], []⟩

/-- A concrete request for the registered tool. -/
def bridgeWitnessReq : MCPToolRequest := ⟨"mcp_t", JSValue.obj [], "c1"⟩

/-- A bridge whose breaker is already open for the witness request's
signature (`mcp_t:` followed by the serialized empty record). -/
def bridgeBlockedState : BridgeState :=
  ⟨["mcp_t"], [], [], [], [("mcp_t:\x7b\x7d", 3)], []⟩

/-- Witness for C4 at a concrete bridge, request and clock values. -/
theorem circuitBreaker_opens_after_three_failures_witness :
    (jsonStringify (normalizeParameters bridgeWitnessReq.toolName bridgeWitnessReq.args
        ((lookupKV bridgeWitnessState.toolSchemas bridgeWitnessReq.toolName).getD
          .undefined)).normalized).isSome = true ∧
    lookupKV bridgeWitnessState.failedCallSignatures
      (requestSignature bridgeWitnessState bridgeWitnessReq 0) = none ∧
    (lookupKV (handleRequest (handleRequest (handleRequest bridgeWitnessState
        (.error "boom") bridgeWitnessReq 0 1).1 (.error "boom") bridgeWitnessReq 2 3).1
        (.error "boom") bridgeWitnessReq 4 5).1.failedCallSignatures
      (requestSignature (handleRequest (handleRequest (handleRequest bridgeWitnessState
        (.error "boom") bridgeWitnessReq 0 1).1 (.error "boom") bridgeWitnessReq 2 3).1
        (.error "boom") bridgeWitnessReq 4 5).1 bridgeWitnessReq 6)).getD 0 = 3 :=
  ⟨rfl, rfl, (circuitBreaker_opens_after_three_failures bridgeWitnessState bridgeWitnessReq
    "boom" "boom" "boom" (.ok .null) 0 1 2 3 4 5 6 7 rfl rfl).1⟩

/-- Witness for C9 at a concrete blocked bridge. -/
theorem handleRequest_short_circuit_state_unchanged_witness :
    MAX_RETRIES ≤ (lookupKV bridgeBlockedState.failedCallSignatures
      (requestSignature bridgeBlockedState bridgeWitnessReq 0)).getD 0 ∧
    (handleRequest bridgeBlockedState (.ok .null) bridgeWitnessReq 0 1).1.toolCallRecords =
      bridgeBlockedState.toolCallRecords :=
  ⟨by decide, (handleRequest_short_circuit_state_unchanged bridgeBlockedState (.ok .null)
     bridgeWitnessReq 0 1 (by decide)).1⟩

/-! ## Context Filter (`ContextManager`, src/package/src/mcp/client.ts:84–165) -/

/-- A `CoreMessage`: a role and a content value (a string or a list of
parts). -/
structure CoreMessage where
  role : String
  content : JSValue

/-- The mutable state of a `ContextManager`. -/
structure CMState where
  messageHistory : List CoreMessage
  tokensSaved : Nat

/-- `estimateTokens(message)` (client.ts:150): one token per four characters
of the serialized content, rounded up.  (On `undefined` content the source
would throw; `CoreMessage` content is a string or an array of parts.) -/
def estimateTokens (m : CoreMessage) : Nat :=
  match jsonStringifyChars m.content with
  | some cs => (cs.length + 3) / 4
  | none => 0

open JSValue in
/-- The code's test for a code-execution tool message (client.ts:101–113):
string content must JSON-parse to a value whose `toolName` is
`code_execution`; array content must contain some `tool-result` part with
tool name `code_execution`. -/
def msgIsCodeExecution (m : CoreMessage) : Bool :=
  match m.content with
  | .str s =>
    (match jsonParse s with
     | some parsed => eqStr (getProp parsed "toolName") "code_execution"
     | none => false)
  | .arr parts =>
    parts.any (fun part =>
      eqStr (getProp part "type") "tool-result"
        && eqStr (getProp part "toolName") "code_execution")
  | _ => false

/-- `ContextManager.addMessage(message, options)` (client.ts:91–123). -/
def addMessage (st : CMState) (m : CoreMessage) (isCodeExecutionResult : Bool) : CMState :=
  if isCodeExecutionResult then
    {st with messageHistory := st.messageHistory ++ [m]}
  else if m.role == "assistant" || m.role == "user" then
    {st with messageHistory := st.messageHistory ++ [m]}
  else if m.role == "tool" then
    if msgIsCodeExecution m then
      {st with messageHistory := st.messageHistory ++ [m]}
    else
      {st with tokensSaved := st.tokensSaved + estimateTokens m}
  else st

/-- Feeding a message stream through the filter with default options (the
tool-result routing of `withContextManagement` passes only `code_execution`
results with the flag set; a raw stream is filtered with the flag unset). -/
def contextFilter (msgs : List CoreMessage) : CMState :=
  msgs.foldl (fun st m => addMessage st m false) ⟨[], 0⟩

/-- The `tool-result` parts of a message's array content. -/
def toolResultParts (m : CoreMessage) : List JSValue :=
  match m.content with
  | .arr parts => parts.filter (fun p => JSValue.eqStr (JSValue.getProp p "type") "tool-result")
  | _ => []

/-- C6 as stated: the retained history is a subsequence and every tool-result
part of every retained message names `code_execution`. -/
def claimC6 (M : List CoreMessage) : Prop :=
  (contextFilter M).messageHistory.Sublist M ∧
  ∀ m ∈ (contextFilter M).messageHistory, ∀ p ∈ toolResultParts m,
    JSValue.eqStr (JSValue.getProp p "toolName") "code_execution" = true

/-- A tool message mixing a `getUser` tool-result part with a
`code_execution` one. -/
def mixedToolMessage : CoreMessage :=
  ⟨"tool", .arr [.obj [("type", .str "tool-result"), ("toolName", .str "getUser")],
                 .obj [("type", .str "tool-result"), ("toolName", .str "code_execution")]]⟩

/-- One step of the filter with the flag unset: the history either stays or
appends the message, and an appended tool message passes the
code-execution test. -/
theorem addMessage_false_cases (st : CMState) (m : CoreMessage) :
    (addMessage st m false).messageHistory = st.messageHistory ∨
    ((addMessage st m false).messageHistory = st.messageHistory ++ [m] ∧
      (m.role = "tool" → msgIsCodeExecution m = true)) := by
  unfold addMessage
  by_cases h1 : (m.role == "assistant" || m.role == "user") = true
  · refine Or.inr ⟨by simp [h1], ?_⟩
    intro hr
    rw [hr] at h1
    simp at h1
  · by_cases h2 : (m.role == "tool") = true
    · by_cases h3 : msgIsCodeExecution m = true
      · exact Or.inr ⟨by simp [h1, h2, h3], fun _ => h3⟩
      · exact Or.inl (by simp [h1, h2, h3])
    · exact Or.inl (by simp [h1, h2])

theorem contextFilter_fold (M : List CoreMessage) (st : CMState) :
    ∃ l, (M.foldl (fun s m => addMessage s m false) st).messageHistory =
      st.messageHistory ++ l ∧ l.Sublist M ∧
      ∀ m ∈ l, m.role = "tool" → msgIsCodeExecution m = true := by
  induction M generalizing st with
  | nil => exact ⟨[], by simp, by simp, by simp⟩
  | cons m M ih =>
    obtain ⟨l, hl, hsub, hP⟩ := ih (addMessage st m false)
    rcases addMessage_false_cases st m with hc | ⟨hc, hm⟩
    · refine ⟨l, ?_, hsub.cons m, hP⟩
      rw [List.foldl_cons, hl, hc]
    · refine ⟨m :: l, ?_, hsub.cons₂ m, ?_⟩
      · rw [List.foldl_cons, hl, hc, List.append_assoc]
        rfl
      · intro x hx
        rcases List.mem_cons.mp hx with hx | hx
        · subst hx; exact hm
        · exact hP x hx

/-- C6 counterexample: the filter admits a whole tool message as soon as one
part is a `code_execution` tool-result, so a retained message can still carry
a `getUser` tool-result part.  The claim as stated fails on the one-message
stream `[mixedToolMessage]`. -/
theorem contextFilter_mixed_message_counterexample : ¬ claimC6 [mixedToolMessage] := by
  intro ⟨_, h⟩
  have hhist : (contextFilter [mixedToolMessage]).messageHistory = [mixedToolMessage] := rfl
  have hparts : toolResultParts mixedToolMessage =
      [.obj [("type", .str "tool-result"), ("toolName", .str "getUser")],
       .obj [("type", .str "tool-result"), ("toolName", .str "code_execution")]] := rfl
  have := h mixedToolMessage (by rw [hhist]; exact List.mem_singleton.mpr rfl)
    (.obj [("type", .str "tool-result"), ("toolName", .str "getUser")])
    (by rw [hparts]; exact List.mem_cons_self _ _)
  simp [JSValue.eqStr, JSValue.getProp] at this

open JSValue in
/-- C6 (amended): for every message stream fed to the Context Filter, the
retained history is a subsequence of the stream, and every retained tool
message passes the code-execution test — it has at least one `tool-result`
part named `code_execution` (or string content whose JSON names
`code_execution`).  An admitted tool message may still carry additional
tool-result parts for other tools. -/
theorem contextFilter_subsequence_and_admittance (M : List CoreMessage) :
    (contextFilter M).messageHistory.Sublist M ∧
    ∀ m ∈ (contextFilter M).messageHistory, m.role = "tool" → msgIsCodeExecution m = true := by
  obtain ⟨l, hl, hsub, hP⟩ := contextFilter_fold M ⟨[], 0⟩
  unfold contextFilter
  rw [hl]
  simpa using ⟨hsub, hP⟩

/-- C10: a message whose role is none of `user` / `assistant` / `tool` is
silently discarded: `addMessage` leaves both the retained history and the
tokens-saved counter unchanged. -/
theorem addMessage_other_roles_noop (st : CMState) (m : CoreMessage)
    (h1 : m.role ≠ "user") (h2 : m.role ≠ "assistant") (h3 : m.role ≠ "tool") :
    addMessage st m false = st := by
  have e1 : (m.role == "assistant") = false := by simpa using h2
  have e2 : (m.role == "user") = false := by simpa using h1
  have e3 : (m.role == "tool") = false := by simpa using h3
  simp [addMessage, e1, e2, e3]

/-- Witness for C10 at a concrete `system` message. -/
theorem addMessage_other_roles_noop_witness :
    (("system" : String) ≠ "user") ∧ (("system" : String) ≠ "assistant") ∧
    (("system" : String) ≠ "tool") ∧
    addMessage ⟨[], 0⟩ ⟨"system", .str "boot"⟩ false = ⟨[], 0⟩ :=
  ⟨by decide, by decide, by decide,
   addMessage_other_roles_noop ⟨[], 0⟩ ⟨"system", .str "boot"⟩
     (by decide) (by decide) (by decide)⟩

/-! ## Savings Accountant (`getComprehensiveTokenSavings`, src/unnamed/part_005:536–588) -/

/-- A sandbox tool-call record as used by the accountant (`result` is
`undefined` when the call recorded no result). -/
structure SandboxToolCall where
  toolName : String
  args : JSValue
  result : JSValue
  error : Option String
  isMCP : Bool

/-- `Math.ceil(JSON.stringify(v).length / 4)` as used on truthy results. -/
def jsonTokens (v : JSValue) : Int :=
  ((((jsonStringifyChars v).getD []).length + 3) / 4 : Nat)

/-- Comma grouping of `Number.prototype.toLocaleString()` (en-US digits),
over reversed digit characters. -/
def groupRev : List Char → Nat → List Char
  | [], _ => []
  | c :: cs, k =>
    if k == 3 then ',' :: c :: groupRev cs 1 else c :: groupRev cs (k + 1)

/-- `n.toLocaleString()` for integral values. -/
def toLocaleString (n : Int) : String :=
  if n < 0 then "-" ++ String.mk ((groupRev (toString n.natAbs).data.reverse 0).reverse)
  else String.mk ((groupRev (toString n.toNat).data.reverse 0).reverse)

/-- The record returned by `getComprehensiveTokenSavings`. -/
structure TokenSavings where
  intermediateResultTokens : Int
  roundTripContextTokens : Int
  toolCallOverheadTokens : Int
  llmDecisionTokens : Int
  totalSaved : Int
  breakdown : String
  mcpToolCalls : Int
  localToolCalls : Int

/-- `getComprehensiveTokenSavings(baseContextTokens = 7000)`
(part_005:536–588): the four-category token-savings breakdown. -/
def getComprehensiveTokenSavings (toolCalls : List SandboxToolCall)
    (baseContextTokens : Int) : TokenSavings :=
  let numCalls := toolCalls.length
  let mcpCalls : Int := ((toolCalls.filter (fun tc => tc.isMCP)).length : Nat)
  let localCalls : Int := (numCalls : Int) - mcpCalls
  if numCalls ≤ 1 then
    {intermediateResultTokens := 0, roundTripContextTokens := 0,
     toolCallOverheadTokens := 0, llmDecisionTokens := 0, totalSaved := 0,
     breakdown := "No savings (single tool call)",
     mcpToolCalls := mcpCalls, localToolCalls := localCalls}
  else
    let resultSizes : List Int := toolCalls.filterMap (fun c =>
      if JSValue.truthy c.result then some (jsonTokens c.result) else none)
    let intermediateResultTokens : Int := resultSizes.sum
    let rtFold := (List.range (numCalls - 1)).foldl
      (fun (p : Int × Int) j =>
        let s := resultSizes.getD j 0
        let s' := if s == 0 then 50 else s
        (p.1 + s', p.2 + (baseContextTokens + (p.1 + s'))))
      (0, 0)
    let roundTripContextTokens := rtFold.2
    let toolCallOverheadTokens : Int := (numCalls : Int) * 40
    let llmDecisionTokens : Int := ((numCalls : Int) - 1) * 80
    let totalSaved := intermediateResultTokens + roundTripContextTokens
      + toolCallOverheadTokens + llmDecisionTokens
    let breakdown := String.intercalate "\n"
      [toString (numCalls : Int) ++ " tool calls executed in sandbox ("
         ++ toString localCalls ++ " local, " ++ toString mcpCalls ++ " MCP)",
       "├─ Intermediate results not sent to LLM: "
         ++ toLocaleString intermediateResultTokens ++ " tokens",
       "├─ Context re-sends avoided: " ++ toLocaleString roundTripContextTokens ++ " tokens",
       "├─ Tool call JSON overhead avoided: "
         ++ toLocaleString toolCallOverheadTokens ++ " tokens",
       "└─ LLM decision outputs avoided: " ++ toLocaleString llmDecisionTokens ++ " tokens"]
    {intermediateResultTokens := intermediateResultTokens,
     roundTripContextTokens := roundTripContextTokens,
     toolCallOverheadTokens := toolCallOverheadTokens,
     llmDecisionTokens := llmDecisionTokens, totalSaved := totalSaved,
     breakdown := breakdown, mcpToolCalls := mcpCalls, localToolCalls := localCalls}

theorem getD_nonneg (sizes : List Int) (hs : ∀ x ∈ sizes, 0 ≤ x) (j : Nat) :
    0 ≤ sizes.getD j 0 := by
  induction sizes generalizing j with
  | nil => simp [List.getD]
  | cons a l ih =>
    cases j with
    | zero => simpa using hs a (List.mem_cons_self a l)
    | succ j =>
      simpa [List.getD_cons_succ] using ih (fun x hx => hs x (List.mem_cons_of_mem a hx)) j

theorem savingsFold_nonneg (sizes : List Int) (B : Int) (hB : 0 ≤ B)
    (hs : ∀ x ∈ sizes, 0 ≤ x) (rng : List Nat) (p : Int × Int)
    (h1 : 0 ≤ p.1) (h2 : 0 ≤ p.2) :
    0 ≤ (rng.foldl (fun (p : Int × Int) j =>
        let s := sizes.getD j 0
        let s' := if s == 0 then 50 else s
        (p.1 + s', p.2 + (B + (p.1 + s')))) p).1 ∧
    0 ≤ (rng.foldl (fun (p : Int × Int) j =>
        let s := sizes.getD j 0
        let s' := if s == 0 then 50 else s
        (p.1 + s', p.2 + (B + (p.1 + s')))) p).2 := by
  induction rng generalizing p with
  | nil => exact ⟨h1, h2⟩
  | cons j rng ih =>
    have hs0 : 0 ≤ sizes.getD j 0 := getD_nonneg sizes hs j
    have hs' : 0 ≤ (if sizes.getD j 0 == 0 then 50 else sizes.getD j 0) := by
      split
      · decide
      · exact hs0
    refine ih _ ?_ ?_
    · exact add_nonneg h1 hs'
    · exact add_nonneg h2 (add_nonneg hB (add_nonneg h1 hs'))

/-- C7: for every tool-call list and nonnegative base-context estimate, the
savings accountant returns four nonnegative category values whose sum is the
reported total; and when the tool-call count is at most 1, all categories and
the total are zero and the breakdown string is
"No savings (single tool call)". -/
theorem getComprehensiveTokenSavings_sound (toolCalls : List SandboxToolCall)
    (B : Int) (hB : 0 ≤ B) :
    let r := getComprehensiveTokenSavings toolCalls B
    0 ≤ r.intermediateResultTokens ∧ 0 ≤ r.roundTripContextTokens ∧
    0 ≤ r.toolCallOverheadTokens ∧ 0 ≤ r.llmDecisionTokens ∧
    r.totalSaved = r.intermediateResultTokens + r.roundTripContextTokens
      + r.toolCallOverheadTokens + r.llmDecisionTokens ∧
    (toolCalls.length ≤ 1 →
      r.intermediateResultTokens = 0 ∧ r.roundTripContextTokens = 0 ∧
      r.toolCallOverheadTokens = 0 ∧ r.llmDecisionTokens = 0 ∧ r.totalSaved = 0 ∧
      r.breakdown = "No savings (single tool call)") := by
  dsimp only
  by_cases hn : toolCalls.length ≤ 1
  · unfold getComprehensiveTokenSavings
    rw [if_pos hn]
    exact ⟨le_refl 0, le_refl 0, le_refl 0, le_refl 0, rfl,
      fun _ => ⟨rfl, rfl, rfl, rfl, rfl, rfl⟩⟩
  · unfold getComprehensiveTokenSavings
    rw [if_neg hn]
    dsimp only
    have hsizes : ∀ x ∈ toolCalls.filterMap (fun c =>
        if JSValue.truthy c.result then some (jsonTokens c.result) else none), 0 ≤ x := by
      intro x hx
      obtain ⟨c, _, hc⟩ := List.mem_filterMap.mp hx
      split at hc
      · cases hc
        exact Int.natCast_nonneg _
      · cases hc
    have hfold := savingsFold_nonneg
      (toolCalls.filterMap (fun c =>
        if JSValue.truthy c.result then some (jsonTokens c.result) else none))
      B hB hsizes (List.range (toolCalls.length - 1)) (0, 0) (le_refl 0) (le_refl 0)
    refine ⟨List.sum_nonneg hsizes, hfold.2, ?_, ?_, rfl, fun h => absurd h hn⟩
    · positivity
    · have h2 : 2 ≤ toolCalls.length := by omega
      have h1 : (1 : Int) ≤ (toolCalls.length : Int) := by exact_mod_cast Nat.one_le_of_lt h2
      have := mul_nonneg (show (0 : Int) ≤ (toolCalls.length : Int) - 1 by linarith)
        (show (0 : Int) ≤ 80 by norm_num)
      linarith

/-- Witness for C7 at the empty call list and the default base estimate. -/
theorem getComprehensiveTokenSavings_sound_witness :
    (0 : Int) ≤ 7000 ∧ ([] : List SandboxToolCall).length ≤ 1 ∧
    (getComprehensiveTokenSavings [] 7000).totalSaved = 0 ∧
    (getComprehensiveTokenSavings [] 7000).breakdown = "No savings (single tool call)" :=
  ⟨by decide, by decide,
   ((getComprehensiveTokenSavings_sound [] 7000 (by decide)).2.2.2.2.2 (by decide)).2.2.2.2.1,
   ((getComprehensiveTokenSavings_sound [] 7000 (by decide)).2.2.2.2.2 (by decide)).2.2.2.2.2⟩

/-! ## RPC response files (part_005:427–525, src/lib/sandbox.ts:210–226)

The host writes a response file either through a quoted heredoc
(`cat > path << 'RESULT_EOF'`, success path of part_005) or through
`echo '<json>' > path` (error paths, and both paths in lib/sandbox.ts).
The heredoc writes its body verbatim; the `echo` form passes the JSON
through bash quoting.  `bashWords` models bash tokenization for the
constructs these payloads can contain — single quotes, double quotes,
backslashes and whitespace; `$`, backticks and globs are not modelled and
do not occur in the evaluated inputs. -/

inductive BashMode where
  | normal : BashMode
  | single : BashMode
  | double : BashMode

/-- Bash word splitting of a command-argument region. -/
def bashWords : List Char → BashMode → List Char → Bool → List (List Char) →
    Option (List (List Char))
  | [], .normal, acc, started, words =>
    some (if started then words ++ [acc.reverse] else words)
  | [], _, _, _, _ => none
  | c :: cs, .normal, acc, started, words =>
    if c == '\x27' then bashWords cs .single acc true words
    else if c == '"' then bashWords cs .double acc true words
    else if c == '\\' then
      match cs with
      | [] => none
      | d :: cs' => bashWords cs' .normal (d :: acc) true words
    else if c == ' ' || c == '\t' then
      if started then bashWords cs .normal [] false (words ++ [acc.reverse])
      else bashWords cs .normal [] false words
    else bashWords cs .normal (c :: acc) true words
  | c :: cs, .single, acc, started, words =>
    if c == '\x27' then bashWords cs .normal acc started words
    else bashWords cs .single (c :: acc) started words
  | c :: cs, .double, acc, started, words =>
    if c == '"' then bashWords cs .normal acc started words
    else if c == '\\' then
      match cs with
      | [] => none
      | d :: cs' =>
        if d == '"' || d == '\\' then bashWords cs' .double (d :: acc) started words
        else bashWords cs' .double (c :: d :: acc) started words
    else bashWords cs .double (c :: acc) started words

/-- The file content produced by `echo '<payload>' > path`: the payload is
wrapped in single quotes, tokenized by bash, and the resulting words are
printed joined by spaces with a trailing newline; `none` when bash rejects
the command (unterminated quote), in which case no file is written. -/
def echoSingleQuotedContent (payload : String) : Option String :=
  match bashWords ('\x27' :: payload.data ++ ['\x27']) .normal [] false [] with
  | some words => some (String.mk (joinChars [' '] words) ++ "\n")
  | none => none

/-- The error-response file content of `processLocalToolCall`
(part_005:460–463): `echo '${JSON.stringify({ error: error.message })}'`. -/
def localToolErrorFileContent (msg : String) : Option String :=
  match jsonStringify (.obj [("error", .str msg)]) with
  | some j => echoSingleQuotedContent j
  | none => none

/-- The response-envelope grammar of the spec: `(data: value)` or
`(error: string)`. -/
def matchesResponseEnvelope (content : String) : Bool :=
  match jsonParse content with
  | some (.obj [("data", _)]) => true
  | some (.obj [("error", .str _)]) => true
  | _ => false

/-- A tool error message containing single and double quotes. -/
def quotedErrorMessage : String := String.mk ['a', '\x27', '"', '\x27', 'b']

/-- C5 (code bug): for the error message `a'"'b` the host writes a response
file whose content is not valid JSON, contradicting the invariant that every
response file matches the envelope grammar.  `JSON.stringify` yields the JSON
text with the double quote escaped; bash strips the inner single quotes and
turns the escaped quote into a bare `"`, so the file contains
`("error":"a"b")` which no JSON parser accepts — the worker's
`JSON.parse(resultData)` then throws inside the stub. -/
theorem responseFile_invalid_json_on_quoted_error :
    localToolErrorFileContent quotedErrorMessage =
      some "\x7b\"error\":\"a\"b\"\x7d\n" ∧
    jsonParse "\x7b\"error\":\"a\"b\"\x7d\n" = none ∧
    matchesResponseEnvelope "\x7b\"error\":\"a\"b\"\x7d\n" = false :=
  ⟨rfl, rfl, rfl⟩

/-! ## Host–worker RPC file protocol (part_005:209–263, 388–426)

A per-request transition system.  The worker stub (generated script,
part_005:209–234) writes `tool_call_<id>.json`, then polls
`tool_result_<id>.json` every 50 ms, deleting both files when it reads the
response, and throws after the timeout.  The host monitor
(part_005:388–426) lists the request files every 100 ms and services *every
file present* — it keeps no record of already-serviced identifiers and never
deletes a request file, so a request that survives into a later tick is
serviced again.  Identifiers are unique per call, so one request's files are
independent of every other's; the state tracks a single identifier. -/

structure RpcFileState where
  requestPresent : Bool
  responsePresent : Bool
  timesServiced : Nat
  responsesWritten : Nat
  timesConsumed : Nat
  workerDone : Bool
  timedOut : Bool

/-- The state right after the worker stub has written its request file. -/
def rpcInit : RpcFileState := ⟨true, false, 0, 0, 0, false, false⟩

/-- One interleaving step: a monitor tick services a present request file
(executing the tool and writing/overwriting the response file); the worker
stub consumes a present response (deleting both files and returning); or the
stub's poll loop times out. -/
inductive RpcStep : RpcFileState → RpcFileState → Prop where
  | monitorService (s t : RpcFileState) (h : s.requestPresent = true)
      (ht : t = {s with
        responsePresent := true
        timesServiced := s.timesServiced + 1
        responsesWritten := s.responsesWritten + 1}) : RpcStep s t
  | workerConsume (s t : RpcFileState) (h1 : s.responsePresent = true)
      (h2 : s.workerDone = false) (h3 : s.timedOut = false)
      (ht : t = {s with
        requestPresent := false
        responsePresent := false
        timesConsumed := s.timesConsumed + 1
        workerDone := true}) : RpcStep s t
  | workerTimeout (s t : RpcFileState) (h2 : s.workerDone = false) (h3 : s.timedOut = false)
      (ht : t = {s with timedOut := true}) : RpcStep s t

/-- States reachable from a freshly written request. -/
def RpcReachable (s : RpcFileState) : Prop :=
  Relation.ReflTransGen RpcStep rpcInit s

/-- C8 as stated: under any interleaving, the host never writes a second
response for, nor services twice, the same request identifier — unless the
execution fails with a timeout. -/
def claimC8 : Prop :=
  ∀ s, RpcReachable s → s.timedOut = true ∨ (s.responsesWritten ≤ 1 ∧ s.timesServiced ≤ 1)

theorem rpcInvariant : ∀ s, RpcReachable s →
    s.timesConsumed ≤ 1 ∧ s.responsesWritten = s.timesServiced ∧
    (s.workerDone = true → 1 ≤ s.responsesWritten) ∧
    (s.responsePresent = true → 1 ≤ s.responsesWritten) ∧
    (s.workerDone = false → s.timesConsumed = 0) := by
  intro s hs
  induction hs with
  | refl => exact ⟨by decide, rfl, by simp [rpcInit], by simp [rpcInit], fun _ => rfl⟩
  | tail hab hbc ih =>
    rcases hbc with ⟨hb, ht⟩ | ⟨hb1, hb2, hb3, ht⟩ | ⟨hb2, hb3, ht⟩
    · subst ht
      dsimp only
      refine ⟨ih.1, ?_, ?_, ?_, ih.2.2.2.2⟩
      · have := ih.2.1; omega
      · intro _; omega
      · intro _; omega
    · subst ht
      dsimp only
      refine ⟨?_, ih.2.1, ?_, ?_, ?_⟩
      · have := ih.2.2.2.2 hb2; omega
      · intro _; exact ih.2.2.2.1 hb1
      · intro h; cases h
      · intro h; cases h
    · subst ht
      dsimp only
      exact ⟨ih.1, ih.2.1, ih.2.2.1, ih.2.2.2.1, ih.2.2.2.2⟩

/-- C8 counterexample: the host can service the same request twice.  If the
monitor's tick fires twice before the worker's 50-ms poll picks up the
response (e.g. the first response lands just before the next tick), the
still-present request file is serviced again: after two `monitorService`
steps the reachable state has two responses written and two services, with
no timeout — refuting the claim as stated. -/
theorem rpcProtocol_double_service_counterexample :
    RpcReachable ⟨true, true, 2, 2, 0, false, false⟩ ∧
    (⟨true, true, 2, 2, 0, false, false⟩ : RpcFileState).timedOut = false ∧
    ¬ claimC8 := by
  have hreach : RpcReachable ⟨true, true, 2, 2, 0, false, false⟩ :=
    Relation.ReflTransGen.tail
      (Relation.ReflTransGen.tail Relation.ReflTransGen.refl
        (RpcStep.monitorService rpcInit _ rfl rfl))
      (RpcStep.monitorService ⟨true, true, 1, 1, 0, false, false⟩ _ rfl rfl)
  refine ⟨hreach, rfl, ?_⟩
  intro h
  rcases h _ hreach with ht | ⟨hw, _⟩
  · cases ht
  · exact absurd hw (by decide)

/-- C8 (amended): the worker consumes at most one response per request
identifier, every response write is a service of the request, and a request
is serviced (and a response written) at least once by the time the worker
consumes; but the host may service the same request file, and overwrite its
response, more than once while the file persists across monitor ticks. -/
theorem rpcRequest_consume_once_service_at_least_once : ∀ s, RpcReachable s →
    s.timesConsumed ≤ 1 ∧ s.responsesWritten = s.timesServiced ∧
    (s.workerDone = true → 1 ≤ s.responsesWritten) := by
  intro s hs
  exact ⟨(rpcInvariant s hs).1, (rpcInvariant s hs).2.1, (rpcInvariant s hs).2.2.1⟩

/-- Witness for C8's amended theorem on the service-then-consume trace. -/
theorem rpcRequest_consume_once_witness :
    RpcReachable ⟨false, false, 1, 1, 1, true, false⟩ ∧
    (⟨false, false, 1, 1, 1, true, false⟩ : RpcFileState).timesConsumed ≤ 1 ∧
    1 ≤ (⟨false, false, 1, 1, 1, true, false⟩ : RpcFileState).responsesWritten := by
  have hreach : RpcReachable ⟨false, false, 1, 1, 1, true, false⟩ :=
    Relation.ReflTransGen.tail
      (Relation.ReflTransGen.tail Relation.ReflTransGen.refl
        (RpcStep.monitorService rpcInit _ rfl rfl))
      (RpcStep.workerConsume ⟨true, true, 1, 1, 0, false, false⟩ _ rfl rfl rfl rfl)
  exact ⟨hreach, (rpcRequest_consume_once_service_at_least_once _ hreach).1,
    (rpcRequest_consume_once_service_at_least_once _ hreach).2.2 rfl⟩
